import Mathlib

/-!
# Verification of the httpxfinish MCP route handler

Shallow embedding of `src/app/mcp/route.ts` (the authoritative variant of the
handler; `src/unnamed/part_000`..`part_002` are earlier variants of the same
file).  The handler is a wrapper around a downstream framework handler
(`createMcpHandler`); the wrapper inspects the `accept` header, answers a small
set of JSON-RPC methods manually, and otherwise delegates with a patched
`accept` header.

Modelling choices:
* JSON values produced by the handler are modelled by the inductive `Json`.
* The runtime's `JSON.parse` plus the destructuring the handler performs
  (`const { id, method, params } = body`) is external code; it is modelled as
  an abstract function `parse : String → Option RpcBody` over which theorems
  quantify.  `method` and `name` are modelled as `Option String` (a JSON value
  that is absent or not one of the compared strings behaves like a
  non-matching string in all `===` comparisons the handler makes).
* `Headers` keys are case-insensitive in the runtime; header maps are modelled
  as functions `String → Option String` over already-normalised keys.
* The downstream handler `coreHandler` is an abstract function
  `core : HttpRequest → HttpResponse` over which theorems quantify.
-/

namespace Httpxfinish

/-- JSON values, for the response bodies the handler constructs. -/
inductive Json where
  | str : String → Json
  | num : Int → Json
  | bool : Bool → Json
  | null : Json
  | arr : List Json → Json
  | obj : List (String × Json) → Json

/-- JavaScript `Array.prototype.join(sep)`: empty array gives `""`,
a singleton gives the element itself, otherwise elements are interleaved
with the separator. -/
def joinSep (sep : String) : List String → String
  | [] => ""
  | [x] => x
  | x :: y :: xs => x ++ sep ++ joinSep sep (y :: xs)

/-- Concatenation of a list of strings (spec-side helper used to state the
flattened shape of the generated command). -/
def concatAll : List String → String
  | [] => ""
  | x :: xs => x ++ concatAll xs

/-- The command builder, from `route.ts` lines 149–152:

    const cmd: string[] = ["-u", targets.join(","), "-silent"];
    if (ports?.length) cmd.push("-p", ports.join(","));
    if (probes?.length) probes.forEach((p: string) => cmd.push(`-${p}`));
    const command = `httpx ${cmd.join(" ")}`;

`ports?.length` is truthy exactly when `ports` is present and non-empty,
likewise for `probes`.  JS numbers are modelled as integers (`Int`), rendered
with `toString` as `join` does. -/
def buildCommand (targets : List String) (ports : Option (List Int))
    (probes : Option (List String)) : String :=
  let cmd : List String := ["-u", joinSep "," targets, "-silent"]
  let cmd := match ports with
    | some ps => if ps.length ≠ 0 then cmd ++ ["-p", joinSep "," (ps.map toString)] else cmd
    | none => cmd
  let cmd := match probes with
    | some prs => if prs.length ≠ 0 then cmd ++ prs.map (fun p => "-" ++ p) else cmd
    | none => cmd
  "httpx " ++ joinSep " " cmd

/-- Spec-side form of the ports fragment: ` -p <p1,p2,...>` when ports are
present and non-empty, empty otherwise. -/
def portsFragment : Option (List Int) → String
  | some ps => if ps.length ≠ 0 then " -p " ++ joinSep "," (ps.map toString) else ""
  | none => ""

/-- Spec-side form of the probes fragment: one ` -<probe>` per probe in input
order (nothing when probes are absent). -/
def probesFragment : Option (List String) → String
  | some prs => concatAll (prs.map (fun p => " -" ++ p))
  | none => ""

/-- Initial-segment test on character lists, building block for the substring
test below. -/
def leadsWith : List Char → List Char → Bool
  | [], _ => true
  | _ :: _, [] => false
  | a :: as, b :: bs => a == b && leadsWith as bs

/-- Contiguous-occurrence test: `occursIn needle hay` holds when `needle`
occurs as a contiguous run inside `hay`. -/
def occursIn (needle : List Char) : List Char → Bool
  | [] => leadsWith needle []
  | c :: cs => leadsWith needle (c :: cs) || occursIn needle cs

/-- JavaScript `String.prototype.includes(needle)`: substring containment. -/
def strIncludes (hay needle : String) : Bool := occursIn needle.toList hay.toList

/-- The tool-call arguments the manual handler reads from `params.arguments`
(`args.target`, `args.ports`, `args.probes`); a field is `none` when absent
from the JSON object. -/
structure ToolArgs where
  target : Option (List String)
  ports : Option (List Int)
  probes : Option (List String)

/-- The `params` member of a JSON-RPC body as destructured by the handler:
`const { name, arguments: args = {} } = params || {}`. -/
structure CallParams where
  name : Option String
  arguments : Option ToolArgs

/-- The destructured JSON-RPC body, `const { id, method, params } = body`.
`id` is an arbitrary JSON value echoed verbatim into responses; `method` is
`none` when absent or not a string (such a value fails every string
comparison the handler makes, just like an unmatched string). -/
structure RpcBody where
  id : Json
  method : Option String
  params : Option CallParams

/-- An HTTP request as the handler observes it.  Header lookup is modelled as
a function over already-normalised (lower-case) keys, matching the
case-insensitive `Headers.get`. -/
structure HttpRequest where
  url : String
  method : String
  headers : String → Option String
  body : String

/-- An HTTP response as constructed by the manual path
(`new Response(JSON.stringify(body), { status, headers })`). -/
structure HttpResponse where
  status : Nat
  headers : List (String × String)
  body : Json

/-- Outcome of the wrapper: either a manually produced response, or
delegation of a (possibly header-patched) request to the downstream
framework handler. -/
inductive RouteResult where
  | manual : HttpResponse → RouteResult
  | delegate : HttpRequest → RouteResult

/-- Response headers used by every manual response:
`{ "content-type": "application/json" }`. -/
def jsonHeaders : List (String × String) := [("content-type", "application/json")]

/-- The constant `manualInitialize` object from `route.ts` lines 73–85
(without the `id`, which is spread in at response time). -/
def manualInitialize : List (String × Json) :=
  [("jsonrpc", Json.str "2.0"),
   ("result", Json.obj
      [("protocolVersion", Json.str "2025-03-26"),
       ("capabilities", Json.obj [("tools", Json.obj [("listChanged", Json.bool true)])]),
       ("serverInfo", Json.obj
          [("name", Json.str "httpxfinish"),
           ("version", Json.str "1.0.0")])])]

/-- Body of the manual `tools/list` response, `route.ts` lines 106–128. -/
def toolsListBody (id : Json) : Json :=
  Json.obj
    [("jsonrpc", Json.str "2.0"),
     ("id", id),
     ("result", Json.obj
        [("tools", Json.arr
           [Json.obj
              [("name", Json.str "httpx"),
               ("description", Json.str
                  "Scans target domains with httpx and lists active HTTP/HTTPS services."),
               ("inputSchema", Json.obj
                  [("type", Json.str "object"),
                   ("properties", Json.obj
                      [("target", Json.obj
                          [("type", Json.str "array"),
                           ("items", Json.obj [("type", Json.str "string")])]),
                       ("ports", Json.obj
                          [("type", Json.str "array"),
                           ("items", Json.obj [("type", Json.str "number")])]),
                       ("probes", Json.obj
                          [("type", Json.str "array"),
                           ("items", Json.obj [("type", Json.str "string")])])]),
                   ("required", Json.arr [Json.str "target"])])]])])]

/-- Body of the manual validation-error response, `route.ts` lines 140–147. -/
def errorBody (id : Json) : Json :=
  Json.obj
    [("jsonrpc", Json.str "2.0"),
     ("id", id),
     ("error", Json.obj
        [("code", Json.num (-32602)),
         ("message", Json.str "target is required")])]

/-- Body of the manual `tools/call` success response, `route.ts`
lines 153–167. -/
def callBody (id : Json) (command : String) : Json :=
  Json.obj
    [("jsonrpc", Json.str "2.0"),
     ("id", id),
     ("result", Json.obj
        [("content", Json.arr
           [Json.obj
              [("type", Json.str "text"),
               ("text", Json.str
                  ("Run this command locally (httpx must be installed):\n" ++ command))]])])]

/-- The `accept` value forced onto delegated requests, `route.ts` line 179. -/
def acceptFull : String := "application/json, text/event-stream"

/-- The branch predicate of `route.ts` line 92:

    if (!accept.includes("application/json") || !accept.includes("text/event-stream"))

with `accept` being the header value, or the empty string when the header is
absent (line 89).  De Morgan: the disjunction of the two negations is the
negation of the conjunction. -/
def takesManualPath (req : HttpRequest) : Bool :=
  let accept := (req.headers "accept").getD ""
  !(strIncludes accept "application/json" && strIncludes accept "text/event-stream")

/-- The delegated request, `route.ts` lines 178–185: headers cloned with
`accept` overwritten, original url, method and body kept. -/
def delegateReq (req : HttpRequest) : HttpRequest :=
  { req with headers := fun k => if k = "accept" then some acceptFull else req.headers k }

/-- The manual-path body of `route.ts` lines 93–173: `none` means no manual
response was produced and control falls through to delegation (this covers
the non-POST case, the JSON parse failure caught at line 170, an unmatched
method, and a `tools/call` whose `name` is not `"httpx"`). -/
def manualAnswer (parse : String → Option RpcBody) (req : HttpRequest) :
    Option HttpResponse :=
  if req.method = "POST" then
    match parse req.body with
    | none => none
    | some b =>
      if b.method = some "initialize" then
        some ⟨200, jsonHeaders, Json.obj (manualInitialize ++ [("id", b.id)])⟩
      else if b.method = some "tools/list" then
        some ⟨200, jsonHeaders, toolsListBody b.id⟩
      else if b.method = some "tools/call" then
        let p := b.params.getD ⟨none, none⟩
        let args := p.arguments.getD ⟨none, none, none⟩
        if p.name = some "httpx" then
          let targets := args.target.getD []
          if targets.length = 0 then
            some ⟨400, jsonHeaders, errorBody b.id⟩
          else
            some ⟨200, jsonHeaders, callBody b.id (buildCommand targets args.ports args.probes)⟩
        else none
      else none
  else none

/-- The routing decision of the wrapper `handler` of `route.ts` lines 88–188:
on the manual path a produced response is returned; in every other case the
request is delegated with the patched `accept` header. -/
def handlerRoute (parse : String → Option RpcBody) (req : HttpRequest) : RouteResult :=
  if takesManualPath req then
    match manualAnswer parse req with
    | some resp => RouteResult.manual resp
    | none => RouteResult.delegate (delegateReq req)
  else RouteResult.delegate (delegateReq req)

/-- The full wrapper, with the downstream `coreHandler` abstracted as `core`:
`return coreHandler(modifiedRequest)` on delegation. -/
def handler (core : HttpRequest → HttpResponse) (parse : String → Option RpcBody)
    (req : HttpRequest) : HttpResponse :=
  match handlerRoute parse req with
  | RouteResult.manual resp => resp
  | RouteResult.delegate req2 => core req2

/-- Concrete POST request with no headers, used to evaluate the handler at
specific inputs. -/
def postReq : HttpRequest := ⟨"http://localhost/mcp", "POST", fun _ => none, "body"⟩

/-- Concrete GET request with no headers. -/
def getReq : HttpRequest := ⟨"http://localhost/mcp", "GET", fun _ => none, ""⟩

/-- Concrete POST request whose only header is
`accept: text/event-stream`. -/
def esOnlyReq : HttpRequest :=
  ⟨"http://localhost/mcp", "POST",
   fun k => if k = "accept" then some "text/event-stream" else none, "body"⟩

/-- Concrete downstream handler used to evaluate delegation. -/
def coreConst : HttpRequest → HttpResponse := fun _ => ⟨200, [], Json.null⟩

/-- Concrete parse outcome: failure on every body. -/
def parseFail : String → Option RpcBody := fun _ => none

/-- Concrete parse outcome: an `initialize` request with id 7. -/
def parseInit : String → Option RpcBody :=
  fun _ => some ⟨Json.num 7, some "initialize", none⟩

/-- Concrete parse outcome: a `tools/list` request with a string id. -/
def parseToolsList : String → Option RpcBody :=
  fun _ => some ⟨Json.str "abc", some "tools/list", none⟩

/-- Concrete parse outcome: a `tools/call` of `httpx` with an empty target
list. -/
def parseEmptyTarget : String → Option RpcBody :=
  fun _ => some ⟨Json.num 1, some "tools/call",
    some ⟨some "httpx", some ⟨some [], none, none⟩⟩⟩

/-- Concrete parse outcome: a `tools/call` of `httpx` with one target and two
unvalidated probe strings (an empty string and one containing spaces and a
shell metacharacter). -/
def parseRawProbes : String → Option RpcBody :=
  fun _ => some ⟨Json.num 2, some "tools/call",
    some ⟨some "httpx", some ⟨some ["example.com"], none, some ["", "title x; rm"]⟩⟩⟩

theorem joinSep_cons_eq (s x : String) (xs : List String) :
    joinSep s (x :: xs) = x ++ concatAll (xs.map (fun y => s ++ y)) := by
  induction xs generalizing x with
  | nil => simp [joinSep, concatAll]
  | cons y ys ih =>
    simp only [joinSep, List.map, concatAll, ih y]
    simp [String.append_assoc]

theorem concatAll_append (xs ys : List String) :
    concatAll (xs ++ ys) = concatAll xs ++ concatAll ys := by
  induction xs with
  | nil => simp [concatAll]
  | cons x xs ih => simp [concatAll, ih, String.append_assoc]

theorem append_httpx_u (X : String) :
    "httpx " ++ ("-u" ++ (" " ++ X)) = "httpx -u " ++ X := by
  rw [← String.append_assoc, ← String.append_assoc]
  congr 1

theorem append_space_silent (X : String) :
    " " ++ ("-silent" ++ X) = " -silent" ++ X := by
  rw [← String.append_assoc]
  congr 1

theorem append_space_dash (p : String) : " " ++ ("-" ++ p) = " -" ++ p := by
  rw [← String.append_assoc]
  congr 1

theorem merge_ports (X : String) :
    " " ++ ("-p" ++ (" " ++ X)) = " -p " ++ X := by
  rw [← String.append_assoc, ← String.append_assoc]
  congr 1

/-- The joined command list always has the head shape
`httpx -u <targets> -silent` followed by one space-prefixed entry per
remaining list element. -/
theorem joinSpace_shape (T : String) (rest : List String) :
    "httpx " ++ joinSep " " ("-u" :: T :: "-silent" :: rest) =
      "httpx -u " ++ T ++ " -silent" ++ concatAll (rest.map (fun y => " " ++ y)) := by
  rw [joinSep_cons_eq]
  simp only [List.map_cons, concatAll, String.append_assoc]
  rw [append_httpx_u, append_space_silent]

/-- Flattened shape of the generated command, unconditionally. -/
theorem buildCommand_eq (targets : List String) (ports : Option (List Int))
    (probes : Option (List String)) :
    buildCommand targets ports probes =
      "httpx -u " ++ joinSep "," targets ++ " -silent" ++
        portsFragment ports ++ probesFragment probes := by
  cases ports with
  | none =>
    cases probes with
    | none =>
      simp only [buildCommand, portsFragment, probesFragment]
      rw [joinSpace_shape]
      simp only [List.map_nil, concatAll, String.append_empty, String.append_assoc]
    | some prs =>
      by_cases h : prs.length ≠ 0
      · simp only [buildCommand, portsFragment, probesFragment, if_pos h,
          List.cons_append, List.nil_append]
        rw [joinSpace_shape]
        simp only [List.map_map, Function.comp_def, append_space_dash,
          String.append_empty, String.append_assoc]
      · have hp : prs = [] := List.length_eq_zero.mp (not_ne_iff.mp h)
        subst hp
        simp only [buildCommand, portsFragment, probesFragment, if_neg h]
        rw [joinSpace_shape]
        simp only [List.map_nil, concatAll, String.append_empty, String.append_assoc]
  | some ps =>
    cases probes with
    | none =>
      by_cases h : ps.length ≠ 0
      · simp only [buildCommand, portsFragment, probesFragment, if_pos h,
          List.cons_append, List.nil_append]
        rw [joinSpace_shape]
        simp only [List.map_cons, List.map_nil, concatAll, String.append_empty,
          String.append_assoc]
        rw [merge_ports]
      · have hp : ps = [] := List.length_eq_zero.mp (not_ne_iff.mp h)
        subst hp
        simp only [buildCommand, portsFragment, probesFragment, if_neg h]
        rw [joinSpace_shape]
        simp only [List.map_nil, concatAll, String.append_empty, String.append_assoc]
    | some prs =>
      by_cases h : ps.length ≠ 0 <;> by_cases h2 : prs.length ≠ 0
      · simp only [buildCommand, portsFragment, probesFragment, if_pos h, if_pos h2,
          List.cons_append, List.nil_append, List.append_assoc]
        rw [joinSpace_shape]
        simp only [List.map_cons, List.map_append, List.map_map, Function.comp_def,
          append_space_dash, concatAll, concatAll_append, String.append_empty,
          String.append_assoc]
        rw [merge_ports]
      · have hp : prs = [] := List.length_eq_zero.mp (not_ne_iff.mp h2)
        subst hp
        simp only [buildCommand, portsFragment, probesFragment, if_pos h, if_neg h2,
          List.cons_append, List.nil_append]
        rw [joinSpace_shape]
        simp only [List.map_cons, List.map_nil, concatAll, String.append_empty,
          String.append_assoc]
        rw [merge_ports]
      · have hp : ps = [] := List.length_eq_zero.mp (not_ne_iff.mp h)
        subst hp
        simp only [buildCommand, portsFragment, probesFragment, if_neg h, if_pos h2,
          List.cons_append, List.nil_append]
        rw [joinSpace_shape]
        simp only [List.map_map, Function.comp_def, append_space_dash,
          String.append_empty, String.append_assoc]
      · have hp : ps = [] := List.length_eq_zero.mp (not_ne_iff.mp h)
        have hp2 : prs = [] := List.length_eq_zero.mp (not_ne_iff.mp h2)
        subst hp; subst hp2
        simp only [buildCommand, portsFragment, probesFragment, if_neg h, if_neg h2]
        rw [joinSpace_shape]
        simp only [List.map_nil, concatAll, String.append_empty, String.append_assoc]

/-- C1: for every target list with at least one element, optional ports list
and optional probes list, the command builder returns exactly `httpx -u `
followed by the targets comma-joined in input order, then ` -silent`, then
(only if ports is present and non-empty) ` -p ` followed by the ports
comma-joined in input order, then, for each probe in input order, a space and
`-` followed by that probe verbatim. -/
theorem c1_command_shape (targets : List String) (ports : Option (List Int))
    (probes : Option (List String)) (htgt : targets ≠ []) :
    buildCommand targets ports probes =
      "httpx -u " ++ joinSep "," targets ++ " -silent" ++
        portsFragment ports ++ concatAll ((probes.getD []).map (fun p => " -" ++ p)) := by
  rw [buildCommand_eq]
  cases probes <;> rfl

theorem c1_command_shape_witness :
    buildCommand ["example.com", "b.org"] (some [80, 443]) (some ["title", "status-code"]) =
      "httpx -u example.com,b.org -silent -p 80,443 -title -status-code" := by
  have h := c1_command_shape ["example.com", "b.org"] (some [80, 443])
    (some ["title", "status-code"]) (by decide)
  rw [h]
  rfl

/-- C8: command generation is a pure function of its input: invocations with
identical inputs return identical command strings (the builder reads nothing
but its three arguments and writes nothing). -/
theorem c8_command_deterministic (t t' : List String) (p p' : Option (List Int))
    (r r' : Option (List String)) (h1 : t = t') (h2 : p = p') (h3 : r = r') :
    buildCommand t p r = buildCommand t' p' r' := by
  subst h1; subst h2; subst h3; rfl

theorem c8_command_deterministic_witness :
    buildCommand ["example.com"] (some [8080]) (some ["title"]) =
      buildCommand ["example.com"] (some [8080]) (some ["title"]) :=
  c8_command_deterministic ["example.com"] ["example.com"] (some [8080]) (some [8080])
    (some ["title"]) (some ["title"]) rfl rfl rfl

/-- C9: the command builder is not injective and applies no quoting: the two
distinct target lists `["a,b"]` and `["a", "b"]` produce byte-identical
commands, because targets are comma-joined verbatim. -/
theorem c9_command_not_injective :
    buildCommand ["a,b"] none none = buildCommand ["a", "b"] none none ∧
      (["a,b"] : List String) ≠ ["a", "b"] := by
  refine ⟨rfl, ?_⟩
  decide

/-- C2: on the manual path, a POST `tools/call` for tool `httpx` whose
`target` argument is absent or the empty list yields a 400 response whose
body is a JSON-RPC error with code -32602 and message "target is required",
echoing the request id; no command appears in that response. -/
theorem c2_empty_target_rejected (parse : String → Option RpcBody)
    (req : HttpRequest) (b : RpcBody)
    (hman : takesManualPath req = true) (hpost : req.method = "POST")
    (hparse : parse req.body = some b) (hm : b.method = some "tools/call")
    (hname : (b.params.getD ⟨none, none⟩).name = some "httpx")
    (htgt : ((b.params.getD ⟨none, none⟩).arguments.getD ⟨none, none, none⟩).target.getD [] = []) :
    handlerRoute parse req = RouteResult.manual
      ⟨400, jsonHeaders, Json.obj
        [("jsonrpc", Json.str "2.0"),
         ("id", b.id),
         ("error", Json.obj
            [("code", Json.num (-32602)),
             ("message", Json.str "target is required")])]⟩ := by
  simp [handlerRoute, manualAnswer, hman, hpost, hparse, hm, hname, htgt, errorBody]

theorem c2_empty_target_rejected_witness :
    handlerRoute parseEmptyTarget postReq = RouteResult.manual
      ⟨400, jsonHeaders, Json.obj
        [("jsonrpc", Json.str "2.0"),
         ("id", Json.num 1),
         ("error", Json.obj
            [("code", Json.num (-32602)),
             ("message", Json.str "target is required")])]⟩ :=
  c2_empty_target_rejected parseEmptyTarget postReq
    ⟨Json.num 1, some "tools/call", some ⟨some "httpx", some ⟨some [], none, none⟩⟩⟩
    rfl rfl rfl rfl rfl rfl

/-- C4: on the manual path, a POST whose body fails to parse as JSON produces
no manual response: the request falls through to the delegation path (never a
500). -/
theorem c4_parse_failure_falls_through (parse : String → Option RpcBody)
    (req : HttpRequest) (hman : takesManualPath req = true)
    (hpost : req.method = "POST") (hparse : parse req.body = none) :
    handlerRoute parse req = RouteResult.delegate (delegateReq req) := by
  simp [handlerRoute, manualAnswer, hman, hpost, hparse]

theorem c4_parse_failure_falls_through_witness :
    handlerRoute parseFail postReq = RouteResult.delegate (delegateReq postReq) :=
  c4_parse_failure_falls_through parseFail postReq rfl rfl rfl

/-- C5: on the delegation path the forwarded request keeps the original
method, body and url; its headers differ from the original only at `accept`,
which is set to declare both modes; and the downstream response is returned
unmodified. -/
theorem c5_delegation_frame (core : HttpRequest → HttpResponse)
    (parse : String → Option RpcBody) (req : HttpRequest) (r2 : HttpRequest)
    (h : handlerRoute parse req = RouteResult.delegate r2) :
    handler core parse req = core r2 ∧
    r2.method = req.method ∧ r2.body = req.body ∧ r2.url = req.url ∧
    r2.headers "accept" = some acceptFull ∧
    ∀ k, k ≠ "accept" → r2.headers k = req.headers k := by
  have hr : r2 = delegateReq req := by
    unfold handlerRoute at h
    by_cases hm : takesManualPath req
    · rw [if_pos hm] at h
      cases hma : manualAnswer parse req with
      | some resp => simp [hma] at h
      | none => simp only [hma] at h; exact (RouteResult.delegate.inj h).symm
    · rw [if_neg hm] at h
      exact (RouteResult.delegate.inj h).symm
  subst hr
  refine ⟨?_, rfl, rfl, rfl, ?_, ?_⟩
  · unfold handler
    rw [h]
  · simp [delegateReq]
  · intro k hk
    simp [delegateReq, hk]

theorem c5_delegation_frame_witness :
    handler coreConst parseFail getReq = coreConst (delegateReq getReq) ∧
    (delegateReq getReq).headers "accept" = some acceptFull ∧
    (delegateReq getReq).headers "content-type" = getReq.headers "content-type" := by
  have h := c5_delegation_frame coreConst parseFail getReq (delegateReq getReq) rfl
  exact ⟨h.1, h.2.2.2.2.1, h.2.2.2.2.2 "content-type" (by decide)⟩

/-- C6: on the manual path, a POST `initialize` request gets, for any id, a
200 response echoing the id and reporting protocol version 2025-03-26, the
tool-listing capability, and server `httpxfinish` version `1.0.0`. -/
theorem c6_initialize_response (parse : String → Option RpcBody)
    (req : HttpRequest) (b : RpcBody)
    (hman : takesManualPath req = true) (hpost : req.method = "POST")
    (hparse : parse req.body = some b) (hm : b.method = some "initialize") :
    handlerRoute parse req = RouteResult.manual
      ⟨200, jsonHeaders, Json.obj
        [("jsonrpc", Json.str "2.0"),
         ("result", Json.obj
            [("protocolVersion", Json.str "2025-03-26"),
             ("capabilities", Json.obj [("tools", Json.obj [("listChanged", Json.bool true)])]),
             ("serverInfo", Json.obj
                [("name", Json.str "httpxfinish"),
                 ("version", Json.str "1.0.0")])]),
         ("id", b.id)]⟩ := by
  simp [handlerRoute, manualAnswer, hman, hpost, hparse, hm, manualInitialize]

theorem c6_initialize_response_witness :
    handlerRoute parseInit postReq = RouteResult.manual
      ⟨200, jsonHeaders, Json.obj
        [("jsonrpc", Json.str "2.0"),
         ("result", Json.obj
            [("protocolVersion", Json.str "2025-03-26"),
             ("capabilities", Json.obj [("tools", Json.obj [("listChanged", Json.bool true)])]),
             ("serverInfo", Json.obj
                [("name", Json.str "httpxfinish"),
                 ("version", Json.str "1.0.0")])]),
         ("id", Json.num 7)]⟩ :=
  c6_initialize_response parseInit postReq ⟨Json.num 7, some "initialize", none⟩
    rfl rfl rfl rfl

/-- C7: on the manual path, a POST `tools/list` request gets a 200 response
whose tool catalog has exactly one entry, named `httpx`, whose input schema
is an object with `target` (array of strings) required and `ports` (array of
numbers) and `probes` (array of strings) optional. -/
theorem c7_tools_list_response (parse : String → Option RpcBody)
    (req : HttpRequest) (b : RpcBody)
    (hman : takesManualPath req = true) (hpost : req.method = "POST")
    (hparse : parse req.body = some b) (hm : b.method = some "tools/list") :
    handlerRoute parse req = RouteResult.manual
      ⟨200, jsonHeaders, Json.obj
        [("jsonrpc", Json.str "2.0"),
         ("id", b.id),
         ("result", Json.obj
            [("tools", Json.arr
               [Json.obj
                  [("name", Json.str "httpx"),
                   ("description", Json.str
                      "Scans target domains with httpx and lists active HTTP/HTTPS services."),
                   ("inputSchema", Json.obj
                      [("type", Json.str "object"),
                       ("properties", Json.obj
                          [("target", Json.obj
                              [("type", Json.str "array"),
                               ("items", Json.obj [("type", Json.str "string")])]),
                           ("ports", Json.obj
                              [("type", Json.str "array"),
                               ("items", Json.obj [("type", Json.str "number")])]),
                           ("probes", Json.obj
                              [("type", Json.str "array"),
                               ("items", Json.obj [("type", Json.str "string")])])]),
                       ("required", Json.arr [Json.str "target"])])]])])]⟩ := by
  simp [handlerRoute, manualAnswer, hman, hpost, hparse, hm, toolsListBody]

theorem c7_tools_list_response_witness :
    handlerRoute parseToolsList postReq = RouteResult.manual
      ⟨200, jsonHeaders, toolsListBody (Json.str "abc")⟩ := by
  have h := c7_tools_list_response parseToolsList postReq
    ⟨Json.str "abc", some "tools/list", none⟩ rfl rfl rfl rfl
  rw [h]
  rfl

/-- C10: on the manual `tools/call` path only `target` is validated: any
probes list, including empty strings and strings with spaces or shell
metacharacters, is embedded verbatim, each probe appearing as ` -<probe>` in
the returned command. -/
theorem c10_probes_unvalidated (parse : String → Option RpcBody)
    (req : HttpRequest) (b : RpcBody) (targets : List String) (prs : List String)
    (hman : takesManualPath req = true) (hpost : req.method = "POST")
    (hparse : parse req.body = some b) (hm : b.method = some "tools/call")
    (hname : (b.params.getD ⟨none, none⟩).name = some "httpx")
    (htgt : ((b.params.getD ⟨none, none⟩).arguments.getD ⟨none, none, none⟩).target.getD [] = targets)
    (hne : targets ≠ [])
    (hprobes : ((b.params.getD ⟨none, none⟩).arguments.getD ⟨none, none, none⟩).probes = some prs) :
    handlerRoute parse req = RouteResult.manual
      ⟨200, jsonHeaders, callBody b.id
        ("httpx -u " ++ joinSep "," targets ++ " -silent" ++
          portsFragment ((b.params.getD ⟨none, none⟩).arguments.getD ⟨none, none, none⟩).ports ++
          concatAll (prs.map (fun p => " -" ++ p)))⟩ := by
  have hlen : ¬ targets.length = 0 := fun hl => hne (List.length_eq_zero.mp hl)
  have hcmd : buildCommand targets
      ((b.params.getD ⟨none, none⟩).arguments.getD ⟨none, none, none⟩).ports (some prs) =
      "httpx -u " ++ joinSep "," targets ++ " -silent" ++
        portsFragment ((b.params.getD ⟨none, none⟩).arguments.getD ⟨none, none, none⟩).ports ++
        concatAll (prs.map (fun p => " -" ++ p)) := by
    rw [buildCommand_eq]
    rfl
  simp [handlerRoute, manualAnswer, hman, hpost, hparse, hm, hname, htgt, hprobes,
    hlen, hcmd]

theorem c10_probes_unvalidated_witness :
    handlerRoute parseRawProbes postReq = RouteResult.manual
      ⟨200, jsonHeaders, callBody (Json.num 2)
        "httpx -u example.com -silent - -title x; rm"⟩ := by
  have h := c10_probes_unvalidated parseRawProbes postReq
    ⟨Json.num 2, some "tools/call",
      some ⟨some "httpx", some ⟨some ["example.com"], none, some ["", "title x; rm"]⟩⟩⟩
    ["example.com"] ["", "title x; rm"]
    rfl rfl rfl rfl rfl rfl (by decide) rfl
  rw [h]
  rfl

/-- C3 as frozen is false on the code: this request's accept header declares
the event-streaming mode (`text/event-stream`), so by the claim the
delegation path must be taken, yet the handler produces a manual response,
because the header lacks `application/json` and line 92 of `route.ts` tests
for both substrings. -/
theorem c3_counterexample :
    strIncludes ((esOnlyReq.headers "accept").getD "") "text/event-stream" = true ∧
    handlerRoute parseInit esOnlyReq = RouteResult.manual
      ⟨200, jsonHeaders, Json.obj (manualInitialize ++ [("id", Json.num 7)])⟩ := by
  constructor
  · decide
  · rfl

/-- C3 amended: the handler takes the manual path exactly when the accept
header (absent treated as the empty string) fails to contain both
`application/json` and `text/event-stream`; in every other case it delegates
the patched request to the downstream handler. -/
theorem c3_branch_condition (parse : String → Option RpcBody) (req : HttpRequest) :
    handlerRoute parse req =
      if ¬ (strIncludes ((req.headers "accept").getD "") "application/json" = true ∧
            strIncludes ((req.headers "accept").getD "") "text/event-stream" = true) then
        match manualAnswer parse req with
        | some resp => RouteResult.manual resp
        | none => RouteResult.delegate (delegateReq req)
      else RouteResult.delegate (delegateReq req) := by
  unfold handlerRoute takesManualPath
  cases ha : strIncludes ((req.headers "accept").getD "") "application/json" <;>
    cases hb : strIncludes ((req.headers "accept").getD "") "text/event-stream" <;>
      simp [ha, hb]

end Httpxfinish
